import Mathlib

/-!
Shallow embedding of the FMDL codec (`pes-fmdl/FmdlFile.py`) and proofs about
the behaviour claimed by its specification.

Modelling conventions:
* Python byte strings are `List ℕ` (each entry one byte value).
* Fallible code is embedded as `Except PyError _`; each `raise` site of the
  Python source maps to a distinct `PyError` value.  `InvalidFmdl` exceptions
  carry the message of the corresponding `raise` statement.
* Python floats are embedded as `PyFloat`: an exact rational for finite
  values, plus distinguished negative zero, infinities and NaN.  All float
  operations performed by the half-float codec on the values of interest
  (scaling by powers of two, `frexp`, `ldexp`, truncation) are exact in IEEE
  double precision, so the rational semantics coincides with Python's.
-/

namespace FmdlSpec

/-- Embedding of the Python exceptions that the codec can raise.
`invalidFmdl` is the codec's own exception class; the remaining constructors
model built-in Python exceptions that particular code paths can raise. -/
inductive PyError where
  | invalidFmdl (msg : String)
  | nameError (missingName : String)
  | indexError
  | valueError
  | structError
deriving DecidableEq, Repr

/-- Exact model of a Python float: finite values as rationals (with `finite 0`
being positive zero), negative zero, the two infinities, and NaN. -/
inductive PyFloat where
  | finite (q : ℚ)
  | negZero
  | inf
  | negInf
  | nan
deriving DecidableEq, Repr

/-- Python's `math.frexp` on an exact rational: for `q ≠ 0` it returns
`(m, e)` with `q = m * 2 ^ e` and `|m| ∈ [1/2, 1)`; `frexp 0 = (0, 0)`. -/
def pyFrexp (q : ℚ) : ℚ × ℤ :=
  if q = 0 then (0, 0)
  else
    let e : ℤ := Int.log 2 |q| + 1
    (q / 2 ^ e, e)

/-- `FmdlFile.parseFloat16`: decode a 16-bit IEEE binary16 pattern into a
float.  `sign`/`biasedExponent`/`mantissa` extraction and the `ldexp` calls
mirror the Python source; `ldexp` is exact on these operands. -/
def parseFloat16 (int16 : ℕ) : PyFloat :=
  let signBit := (int16 >>> 15) &&& 1
  let biasedExponent := (int16 >>> 10) &&& 31
  let mantissa := int16 &&& 1023
  if biasedExponent = 31 then
    if mantissa = 0 then (if signBit = 0 then .inf else .negInf) else .nan
  else
    let value : ℚ :=
      if biasedExponent = 0 then (mantissa : ℚ) * (2 : ℚ) ^ (-24 : ℤ)
      else ((mantissa : ℚ) + 1024) * (2 : ℚ) ^ ((biasedExponent : ℤ) - 25)
    if signBit = 0 then .finite value
    else if value = 0 then .negZero else .finite (-value)

/-- `FmdlFile.encodeFloat16`: encode a float into a 16-bit binary16 pattern.
Notes on fidelity to the Python source:
* `sign = 1 if (floatValue < 0.0) else 0`: Python's `-0.0 < 0.0` is false, so
  negative zero gets sign bit 0; `math.frexp (-0.0) = (-0.0, 0)` and the
  `candidateMantissa < 0.1` branch then yields the all-zero pattern.
* The literal `0.1` of the source is modelled as `1/10`; for `q ≠ 0` the
  frexp mantissa is at least `1/2`, so only (either) zero takes that branch
  and the difference between the double `0.1` and `1/10` is immaterial.
* Python `int(...)` truncates toward zero; both truncated operands are
  nonnegative here, so it is `Int.floor` followed by `Int.toNat`. -/
def encodeFloat16Finite (q : ℚ) : ℕ :=
  let sign : ℕ := if q < 0 then 1 else 0
  let absValue := |q|
  let fr := pyFrexp absValue
  let candidateMantissa := fr.1
  let exponent := fr.2
  let beM : ℕ × ℕ :=
    if candidateMantissa < 1 / 10 then (0, 0)
    else if exponent < -13 then
      (0, (⌊candidateMantissa * (2 : ℚ) ^ (24 + exponent)⌋).toNat)
    else if exponent > 16 then (31, 0)
    else ((exponent + 14).toNat, (⌊(candidateMantissa * 2 - 1) * 1024⌋).toNat)
  (sign <<< 15) ||| (beM.1 <<< 10) ||| beM.2

def encodeFloat16 (f : PyFloat) : ℕ :=
  match f with
  | .nan => (31 <<< 10) ||| 1023
  | .inf => 31 <<< 10
  | .negInf => (1 <<< 15) ||| (31 <<< 10)
  | .negZero => 0
  | .finite q => encodeFloat16Finite q

/-!
### Container layer (`FmdlContainer`)

A container holds segment-0 blocks (lists of fixed-size records, each record a
byte list) and segment-1 blocks (plain byte lists), keyed by block id.
Python dicts become association lists; dict keys are unique, and the reader
enforces this with its duplicate-block checks.
-/

structure FmdlContainer where
  segment0Blocks : List (ℕ × List (List ℕ))
  segment1Blocks : List (ℕ × List ℕ)
deriving DecidableEq, Repr

/-- The padding step of `FmdlContainer.writeStream`: a byte block whose length
is not a multiple of 16 is extended with `16 - len % 16` zero bytes. -/
def pad16 (block : List ℕ) : List ℕ :=
  if block.length % 16 = 0 then block
  else block ++ List.replicate (16 - block.length % 16) 0

/-- One segment-0 block as emitted by `FmdlContainer.writeStream`: the
concatenation of its records, padded to a 16-byte multiple. -/
def writeSection0Block (entries : List (List ℕ)) : List ℕ :=
  pad16 entries.flatten

/-- The list of segment-0 blocks emitted by `FmdlContainer.writeStream`, in
block-id order 0..63 (the writer additionally appends one section-level
padding chunk after the last block, which is not itself a block). -/
def writeStreamSection0Blocks (c : FmdlContainer) : List (List ℕ) :=
  (List.range 64).filterMap (fun i => (c.segment0Blocks.lookup i).map writeSection0Block)

/-- The list of segment-1 blocks emitted by `FmdlContainer.writeStream`, in
block-id order 0..63.  The source stores each block as-is (`block =
self.segment1Blocks[i]`) with no padding step. -/
def writeStreamSection1Blocks (c : FmdlContainer) : List (List ℕ) :=
  (List.range 64).filterMap (fun i => c.segment1Blocks.lookup i)

/-- Processing of one segment-1 descriptor by `FmdlContainer.readStream`
(lines 109-125): duplicate check, liberal clamping of the declared length
(`length > remaining or blockID == 3`), then reading the block bytes.
`file` is the whole stream; `section1Offset` the section-1 base offset.
Python's `bytearray(length)` raises `ValueError` when the clamped length is
negative; the subsequent `readinto` never comes up short because the length
is at most the number of bytes left. -/
def readSegment1Block (file : List ℕ) (section1Offset : ℕ) (blocks : List (ℕ × List ℕ))
    (blockID sectionOffset length : ℕ) : Except PyError (List (ℕ × List ℕ)) :=
  if (blocks.lookup blockID).isSome then
    .error (.invalidFmdl "Duplicate segment 1 block")
  else
    let fileLength : ℤ := file.length
    let remainingLength : ℤ := fileLength - (sectionOffset + section1Offset : ℕ)
    let clamped : ℤ := if remainingLength < length ∨ blockID = 3 then remainingLength else length
    if clamped < 0 then .error .valueError
    else
      let block := (file.drop (sectionOffset + section1Offset)).take clamped.toNat
      if block.length ≠ clamped.toNat then
        .error (.invalidFmdl "Unexpected end of file reading section 1 block")
      else
        .ok (blocks ++ [(blockID, block)])

/-!
### Face parsing (`FmdlFile.parseFaces`)

Faces are triples of `u16` little-endian vertex indices read from segment-1
block 2.  Vertices are modelled by their indices, so a parsed face is the
index triple itself.  The bounds check of the source reads
`if not index1 < len(vertices) and index2 < len(vertices) and index3 <
len(vertices)`, which by Python precedence is
`(not index1 < n) and (index2 < n) and (index3 < n)`; when that test does not
fire, `vertices[indexK]` raises `IndexError` for any out-of-range index.
`struct.unpack_from` raises `struct.error` when fewer than 6 bytes remain.
-/

def readUInt16LE (buffer : List ℕ) (position : ℕ) : ℕ :=
  buffer.getD position 0 + 256 * buffer.getD (position + 1) 0

def parseFacesStep (buffer : List ℕ) (numVertices position : ℕ) :
    Except PyError (ℕ × ℕ × ℕ) :=
  if buffer.length < position + 6 then .error .structError
  else
    let index1 := readUInt16LE buffer position
    let index2 := readUInt16LE buffer (position + 2)
    let index3 := readUInt16LE buffer (position + 4)
    if ¬ index1 < numVertices ∧ index2 < numVertices ∧ index3 < numVertices then
      .error (.invalidFmdl "Invalid vertex referenced by face")
    else if index1 < numVertices ∧ index2 < numVertices ∧ index3 < numVertices then
      .ok (index1, index2, index3)
    else
      .error .indexError

/-- Loop counter values of `range(first, first + count, 3)`. -/
def faceVertexLoopIndices (firstFaceVertexIndex faceVertexCount : ℕ) : List ℕ :=
  (List.range ((faceVertexCount + 2) / 3)).map (fun k => firstFaceVertexIndex + 3 * k)

def parseFacesLoop (buffer : List ℕ) (vertexBufferOffset numVertices : ℕ) :
    List ℕ → Except PyError (List (ℕ × ℕ × ℕ))
  | [] => .ok []
  | faceVertexIndex :: rest =>
    match parseFacesStep buffer numVertices (faceVertexIndex * 2 + vertexBufferOffset) with
    | .error e => .error e
    | .ok t => (parseFacesLoop buffer vertexBufferOffset numVertices rest).map (fun l => t :: l)

def parseFaces (vertexBlock : Option (List ℕ))
    (vertexBufferOffset firstFaceVertexIndex faceVertexCount numVertices : ℕ) :
    Except PyError (List (ℕ × ℕ × ℕ)) :=
  match vertexBlock with
  | none => .error (.invalidFmdl "Vertex block not found")
  | some vertexBuffer =>
    parseFacesLoop vertexBuffer vertexBufferOffset numVertices
      (faceVertexLoopIndices firstFaceVertexIndex faceVertexCount)

/-!
### Texture parsing (`FmdlFile.parseTextures`)

Each block-6 record is a pair of string ids.  The out-of-range branches of the
source read `raise InvalidFdml(...)` -- a misspelling of `InvalidFmdl` -- so
evaluating that undefined name raises Python `NameError` instead of the
codec's exception.
-/

def parseTextures (strings : List String) :
    List (ℕ × ℕ) → Except PyError (List (String × String))
  | [] => .ok []
  | (filenameStringID, directoryStringID) :: rest =>
    if ¬ filenameStringID < strings.length then .error (.nameError "InvalidFdml")
    else if ¬ directoryStringID < strings.length then .error (.nameError "InvalidFdml")
    else
      (parseTextures strings rest).map
        (fun l => (strings.getD filenameStringID "", strings.getD directoryStringID "") :: l)

/-!
### Bone groups (`FmdlFile.parseBoneGroups` / `FmdlFile.addBoneGroup`)

A block-5 record is 68 bytes: a 4-byte header carrying `entryCount` followed
by 32 `u16` bone-id slots.  The reader clamps `entryCount` to 32 and
bounds-checks each used bone id; bones are modelled by their indices.
-/

def collectGroupBones (numBones : ℕ) : List ℕ → Except PyError (List ℕ)
  | [] => .ok []
  | boneID :: rest =>
    if ¬ boneID < numBones then
      .error (.invalidFmdl "Invalid bone ID referenced by bone group")
    else
      (collectGroupBones numBones rest).map (fun l => boneID :: l)

def parseBoneGroupRecord (numBones entryCount : ℕ) (slots : List ℕ) :
    Except PyError (List ℕ) :=
  let count := if entryCount > 32 then 32 else entryCount
  collectGroupBones numBones (slots.take count)

/-- Write-side check of `FmdlFile.addBoneGroup`; on success it returns the
written `entryCount` and the 32 `u16` slots of the record. -/
def addBoneGroup (boneIDs : List ℕ) : Except PyError (ℕ × List ℕ) :=
  if boneIDs.length > 32 then .error (.invalidFmdl "Too many bones in bone group")
  else .ok (boneIDs.length, boneIDs ++ List.replicate (32 - boneIDs.length) 0)

/-!
### Mesh bone-group selection (`FmdlFile.parseMeshes`, lines 663-668)

`if not boneIndices: boneGroup = None / elif not boneGroupID < len(boneGroups):
raise / else boneGroup = boneGroups[boneGroupID]`.  Bone groups are modelled
by their indices.
-/

def selectBoneGroup (hasBoneIndices : Bool) (boneGroupID numBoneGroups : ℕ) :
    Except PyError (Option ℕ) :=
  if ¬ hasBoneIndices then .ok none
  else if ¬ boneGroupID < numBoneGroups then
    .error (.invalidFmdl "Invalid bone group ID referenced by mesh")
  else .ok (some boneGroupID)

/-!
### Parent links, children lists and cycle detection

`FmdlFile.parseBones` and `FmdlFile.parseMeshGroups` share this logic
verbatim: after all nodes are materialized, a second pass resolves each
node's `parentID` (bounds-checked) and appends the node to its parent's
`children` list in source order; a third pass walks each node's ancestor
chain, raising `InvalidFmdl` when a node repeats within one walk.  Nodes are
modelled by their indices and the resolved parent links by
`parents : List (Option ℕ)`.  The Python walk terminates after at most
`n + 1` steps because `seen` only ever collects distinct node indices below
`n`; the fuel value used by `checkParentLoops` is shown sufficient in the
theorems below.
-/

def pyParent (parents : List (Option ℕ)) (i : ℕ) : Option ℕ :=
  parents.getD i none

inductive WalkResult where
  | ok
  | cycleError
  | outOfFuel
deriving DecidableEq, Repr

def walkParents (parents : List (Option ℕ)) : ℕ → List ℕ → ℕ → WalkResult
  | 0, _, _ => .outOfFuel
  | fuel + 1, seen, cur =>
    match pyParent parents cur with
    | none => .ok
    | some p =>
      if cur ∈ seen then .cycleError
      else walkParents parents fuel (seen ++ [cur]) p

/-- `true` iff the loop-check pass of `parseBones` / `parseMeshGroups` raises
the parent-loop `InvalidFmdl` error. -/
def checkParentLoops (parents : List (Option ℕ)) : Bool :=
  (List.range parents.length).any
    (fun i => walkParents parents (parents.length + 1) [] i != WalkResult.ok)

/-- `k`-fold iteration of the parent link, `none` once the chain has ended. -/
def parentIter (parents : List (Option ℕ)) : ℕ → ℕ → Option ℕ
  | 0, i => some i
  | k + 1, i =>
    match pyParent parents i with
    | none => none
    | some p => parentIter parents k p

/-- All parent links point at an existing node, as guaranteed by the
bounds-checked resolution pass that precedes the cycle check. -/
def parentsValid (parents : List (Option ℕ)) : Bool :=
  parents.all (fun p => p.all (fun v => decide (v < parents.length)))

/-- Spec-side notion of a cycle: some node is a strict ancestor of itself. -/
def HasParentCycle (parents : List (Option ℕ)) : Prop :=
  ∃ i < parents.length, ∃ k, 0 < k ∧ parentIter parents k i = some i

/-- Shared shape of the children-building pass of `parseBones` /
`parseMeshGroups` and of the mesh-distribution pass of `parseMeshGroups`:
iterate `i` over `0..n`, appending `i` to the list at position `key i`. -/
def scatterAppend (n m : ℕ) (key : ℕ → Option ℕ) : List (List ℕ) :=
  (List.range n).foldl
    (fun acc i =>
      match key i with
      | none => acc
      | some p => acc.set p (acc.getD p [] ++ [i]))
    (List.replicate m [])

def buildChildren (parents : List (Option ℕ)) : List (List ℕ) :=
  scatterAppend parents.length parents.length (pyParent parents)

/-!
### Mesh-group assignments (`FmdlFile.parseMeshGroups`, lines 527-551)

Each block-2 record assigns the mesh-index range
`[firstMeshIndex, firstMeshIndex + meshCount)` to one mesh group.  The reader
keeps a per-mesh `assignments` array (initially all `None`), errors on double
assignment, errors if any slot stays `None`, and finally appends each mesh to
its group's `meshes` list in mesh order.  Bounding boxes are modelled by
their indices; the reader's identity comparison of resolved
`BoundingBox` objects coincides with comparison of the indices.
-/

structure MeshGroupAssignment where
  meshGroupID : ℕ
  firstMeshIndex : ℕ
  meshCount : ℕ
  boundingBoxID : ℕ
deriving DecidableEq, Repr

def fillAssignments (assignments : List (Option ℕ)) (gid : ℕ) :
    ℕ → ℕ → Except PyError (List (Option ℕ))
  | _, 0 => .ok assignments
  | first, count + 1 =>
    match assignments.getD first none with
    | some _ => .error (.invalidFmdl "Invalid double mesh group assignment")
    | none => fillAssignments (assignments.set first (some gid)) gid (first + 1) count

def processMeshGroupAssignments (numMeshes numMeshGroups numBoundingBoxes : ℕ) :
    List MeshGroupAssignment → List (Option ℕ) → List (Option ℕ) →
    Except PyError (List (Option ℕ) × List (Option ℕ))
  | [], assignments, groupBoxes => .ok (assignments, groupBoxes)
  | r :: rest, assignments, groupBoxes =>
    if ¬ r.meshGroupID < numMeshGroups then
      .error (.invalidFmdl "Invalid mesh group ID referenced by mesh group assignment")
    else if ¬ r.firstMeshIndex + r.meshCount ≤ numMeshes then
      .error (.invalidFmdl "Invalid mesh ID referenced by mesh group assignment")
    else if ¬ r.boundingBoxID < numBoundingBoxes then
      .error (.invalidFmdl "Invalid bounding box ID referenced by mesh group assignment")
    else
      match fillAssignments assignments r.meshGroupID r.firstMeshIndex r.meshCount with
      | .error e => .error e
      | .ok filled =>
        match groupBoxes.getD r.meshGroupID none with
        | some b =>
          if b ≠ r.boundingBoxID then
            .error (.invalidFmdl "Invalid double bounding box assignment for mesh group")
          else
            processMeshGroupAssignments numMeshes numMeshGroups numBoundingBoxes rest
              filled (groupBoxes.set r.meshGroupID (some r.boundingBoxID))
        | none =>
          processMeshGroupAssignments numMeshes numMeshGroups numBoundingBoxes rest
            filled (groupBoxes.set r.meshGroupID (some r.boundingBoxID))

/-- The whole mesh-assignment phase of `parseMeshGroups`: process all block-2
records, fail with the unassigned-mesh error if any slot is still `None`,
then distribute mesh indices into per-group `meshes` lists. -/
def assignMeshesToGroups (numMeshes numMeshGroups numBoundingBoxes : ℕ)
    (records : List MeshGroupAssignment) : Except PyError (List (List ℕ)) :=
  match processMeshGroupAssignments numMeshes numMeshGroups numBoundingBoxes records
      (List.replicate numMeshes none) (List.replicate numMeshGroups none) with
  | .error e => .error e
  | .ok (assignments, _) =>
    if none ∈ assignments then .error (.invalidFmdl "Mesh not assigned to mesh group")
    else .ok (scatterAppend numMeshes numMeshGroups (fun i => assignments.getD i none))

def covers (r : MeshGroupAssignment) (i : ℕ) : Prop :=
  r.firstMeshIndex ≤ i ∧ i < r.firstMeshIndex + r.meshCount

instance (r : MeshGroupAssignment) (i : ℕ) : Decidable (covers r i) :=
  inferInstanceAs (Decidable (_ ∧ _))

/-- How many records assign mesh index `i`. -/
def coverageCount (records : List MeshGroupAssignment) (i : ℕ) : ℕ :=
  records.countP (fun r => decide (covers r i))

def assignmentRecordsValid (numMeshes numMeshGroups numBoundingBoxes : ℕ)
    (records : List MeshGroupAssignment) : Bool :=
  records.all (fun r =>
    decide (r.meshGroupID < numMeshGroups) &&
    decide (r.firstMeshIndex + r.meshCount ≤ numMeshes) &&
    decide (r.boundingBoxID < numBoundingBoxes))

/-- Two records naming the same mesh group carry the same bounding box id, so
the reader's double-bounding-box check never fires. -/
def BoxesConsistent (records : List MeshGroupAssignment) : Prop :=
  ∀ r ∈ records, ∀ s ∈ records, r.meshGroupID = s.meshGroupID →
    r.boundingBoxID = s.boundingBoxID

instance (records : List MeshGroupAssignment) : Decidable (BoxesConsistent records) :=
  inferInstanceAs (Decidable (∀ r ∈ records, ∀ s ∈ records,
    r.meshGroupID = s.meshGroupID → r.boundingBoxID = s.boundingBoxID))


/-!
### Vertex formats (`FmdlFile.addMeshFormatAssignment` and the format
interpretation in `parseMeshFormatAssignments` / `parseMeshes`)

Records are modelled at the level of their unpacked fields (`pack`/`unpack`
with matching format strings cancel).  Datum types and formats keep the
numeric values of `FmdlVertexDatumType` / `FmdlVertexDatumFormat`.
-/

structure Block11Rec where
  datumType : ℕ
  datumFormat : ℕ
  offset : ℕ
deriving DecidableEq, Repr

structure Block10Rec where
  bufferID : ℕ
  vertexFormatEntryCount : ℕ
  bufferOffsetIncrement : ℕ
  meshFormatType : ℕ
  bufferOffset : ℕ
deriving DecidableEq, Repr

structure Block9Rec where
  meshFormatEntryCount : ℕ
  vertexFormatEntryCount : ℕ
  firstUvIndex : ℕ
  uvIndexCount : ℕ
  firstMeshFormatID : ℕ
  firstVertexFormatID : ℕ
deriving DecidableEq, Repr

structure VertexFields where
  hasNormal : Bool
  hasTangent : Bool
  hasColor : Bool
  hasBoneMapping : Bool
  uvCount : ℕ
  uvEqualities : List (ℕ × List ℕ)
deriving DecidableEq, Repr

/-- Accumulator of `addMeshFormatAssignment`:
block-11 records written so far, the `formatEntries` return list
(bufferID, datumType, datumFormat, offset), the two running buffer offsets
`bufferOffsets[0]` / `bufferOffsets[1]`, the four `typeEntries` counters, and
the `uvOffsets` dict of the uv loop. -/
structure FormatBuildState where
  block11 : List Block11Rec
  formatEntries : List (ℕ × ℕ × ℕ × ℕ)
  posOffset : ℕ
  dataOffset : ℕ
  te0 : ℕ
  te1 : ℕ
  te2 : ℕ
  te3 : ℕ
  uvOffsets : List (ℕ × ℕ)
deriving DecidableEq, Repr

def uvDatumTypes : List ℕ := [8, 9, 10, 11]

/-- One iteration of the uv loop of `addMeshFormatAssignment`: channel `i` is
either aliased to the first already-emitted channel listed in
`uvEqualities[i]` (same offset, no new format entry, no stride growth) or
emitted as a fresh `doubleFloat16` at the current data offset. -/
def uvLoopStep (vf : VertexFields) (st : FormatBuildState) (i : ℕ) : FormatBuildState :=
  let equalities := (vf.uvEqualities.lookup i).getD []
  match equalities.find? (fun uv => (st.uvOffsets.lookup uv).isSome) with
  | some uv =>
    { st with
      block11 := st.block11 ++ [⟨uvDatumTypes.getD i 0, 7, (st.uvOffsets.lookup uv).getD 0⟩]
      te3 := st.te3 + 1 }
  | none =>
    { st with
      block11 := st.block11 ++ [⟨uvDatumTypes.getD i 0, 7, st.dataOffset⟩]
      formatEntries := st.formatEntries ++ [(1, uvDatumTypes.getD i 0, 7, st.dataOffset)]
      uvOffsets := st.uvOffsets ++ [(i, st.dataOffset)]
      dataOffset := st.dataOffset + 4
      te3 := st.te3 + 1 }

def formatStatePosition : FormatBuildState :=
  { block11 := [⟨0, 1, 0⟩]
    formatEntries := [(0, 0, 1, 0)]
    posOffset := 12
    dataOffset := 0
    te0 := 1
    te1 := 0
    te2 := 0
    te3 := 0
    uvOffsets := [] }

def formatStateNormal (vf : VertexFields) (st : FormatBuildState) : FormatBuildState :=
  if vf.hasNormal then
    { st with
      block11 := st.block11 ++ [⟨2, 6, st.dataOffset⟩]
      formatEntries := st.formatEntries ++ [(1, 2, 6, st.dataOffset)]
      dataOffset := st.dataOffset + 8
      te1 := st.te1 + 1 }
  else st

def formatStateTangent (vf : VertexFields) (st : FormatBuildState) : FormatBuildState :=
  if vf.hasTangent then
    { st with
      block11 := st.block11 ++ [⟨14, 6, st.dataOffset⟩]
      formatEntries := st.formatEntries ++ [(1, 14, 6, st.dataOffset)]
      dataOffset := st.dataOffset + 8
      te1 := st.te1 + 1 }
  else st

def formatStateColor (vf : VertexFields) (st : FormatBuildState) : FormatBuildState :=
  if vf.hasColor then
    { st with
      block11 := st.block11 ++ [⟨3, 8, st.dataOffset⟩]
      formatEntries := st.formatEntries ++ [(1, 3, 8, st.dataOffset)]
      dataOffset := st.dataOffset + 4
      te2 := st.te2 + 1 }
  else st

def formatStateBoneMapping (vf : VertexFields) (st : FormatBuildState) : FormatBuildState :=
  if vf.hasBoneMapping then
    { st with
      block11 := st.block11 ++ [⟨1, 8, st.dataOffset⟩, ⟨7, 9, st.dataOffset + 4⟩]
      formatEntries := st.formatEntries ++
        [(1, 1, 8, st.dataOffset), (1, 7, 9, st.dataOffset + 4)]
      dataOffset := st.dataOffset + 8
      te3 := st.te3 + 2 }
  else st

structure MeshFormatOutput where
  block9 : Block9Rec
  block10 : List Block10Rec
  block11 : List Block11Rec
  formatEntries : List (ℕ × ℕ × ℕ × ℕ)
  positionStride : ℕ
  dataStride : ℕ
deriving DecidableEq, Repr

/-- `FmdlFile.addMeshFormatAssignment` on a fresh container (so the first
mesh-format id and first vertex-format id are 0): emits block-11 records for
position, the optional fields, and the uv channels (with aliasing), then one
block-10 record per non-empty `typeEntries` category, then the block-9
assignment record.  `vertexPositionBufferOffset` / `vertexDataBufferOffset`
are the lengths of the growing vertex buffers, 0 for the first mesh. -/
def addMeshFormatAssignment (vf : VertexFields)
    (vertexPositionBufferOffset vertexDataBufferOffset : ℕ) : MeshFormatOutput :=
  let st :=
    (List.range vf.uvCount).foldl (uvLoopStep vf)
      (formatStateBoneMapping vf
        (formatStateColor vf
          (formatStateTangent vf
            (formatStateNormal vf formatStatePosition))))
  let block10 : List Block10Rec :=
    [⟨0, st.te0, st.posOffset, 0, vertexPositionBufferOffset⟩]
    ++ (if st.te1 > 0 then [⟨1, st.te1, st.dataOffset, 1, vertexDataBufferOffset⟩] else [])
    ++ (if st.te2 > 0 then [⟨1, st.te2, st.dataOffset, 2, vertexDataBufferOffset⟩] else [])
    ++ (if st.te3 > 0 then [⟨1, st.te3, st.dataOffset, 3, vertexDataBufferOffset⟩] else [])
  { block9 := ⟨block10.length, st.block11.length, 0, vf.uvCount, 0, 0⟩
    block10 := block10
    block11 := st.block11
    formatEntries := st.formatEntries
    positionStride := st.posOffset
    dataStride := st.dataOffset }

/-- `FmdlFile.parseMeshFormats`: reorder the unpacked block-10 fields into
`(bufferID, bufferOffset, bufferOffsetIncrement, vertexFormatEntryCount)`. -/
def parseMeshFormats (recs : List Block10Rec) : List (ℕ × ℕ × ℕ × ℕ) :=
  recs.map (fun r => (r.bufferID, r.bufferOffset, r.bufferOffsetIncrement, r.vertexFormatEntryCount))

def validDatumTypes : List ℕ := [0, 1, 2, 3, 7, 8, 9, 10, 11, 14]

def validDatumFormats : List ℕ := [1, 6, 7, 8, 9]

/-- `FmdlFile.parseVertexFormats`: validate the datum type and format of each
block-11 record. -/
def parseVertexFormats : List Block11Rec → Except PyError (List (ℕ × ℕ × ℕ))
  | [] => .ok []
  | r :: rest =>
    if r.datumType ∉ validDatumTypes then .error (.invalidFmdl "Invalid vertex datum type")
    else if r.datumFormat ∉ validDatumFormats then .error (.invalidFmdl "Invalid vertex datum format")
    else (parseVertexFormats rest).map (fun l => (r.datumType, r.datumFormat, r.offset) :: l)

/-- Inner loop of `parseMeshFormatAssignments`: for each selected block-10
record emit `vertexFormatEntryCount` copies of `(absolute offset, stride)`. -/
def expandMeshFormats (bufferOffsets : List ℕ) :
    List (ℕ × ℕ × ℕ × ℕ) → Except PyError (List (ℕ × ℕ))
  | [] => .ok []
  | (bufferID, bufferOffset, bufferOffsetIncrement, vertexEntryCount) :: rest =>
    if ¬ bufferID < bufferOffsets.length then
      .error (.invalidFmdl "Invalid buffer offset ID referenced by mesh format definition")
    else
      (expandMeshFormats bufferOffsets rest).map (fun tail =>
        List.replicate vertexEntryCount
          (bufferOffsets.getD bufferID 0 + bufferOffset, bufferOffsetIncrement) ++ tail)

/-- `FmdlFile.parseMeshFormatAssignments` for one block-9 record: produce the
per-mesh list of `(datumType, datumFormat, absoluteOffset, increment)`. -/
def parseMeshFormatAssignment1 (bufferOffsets : List ℕ)
    (meshFormatDefs : List (ℕ × ℕ × ℕ × ℕ)) (vertexFormatDefs : List (ℕ × ℕ × ℕ))
    (r9 : Block9Rec) : Except PyError (List (ℕ × ℕ × ℕ × ℕ)) :=
  if ¬ r9.firstMeshFormatID + r9.meshFormatEntryCount ≤ meshFormatDefs.length then
    .error (.invalidFmdl "Invalid mesh format entry referenced by mesh format assignment")
  else if ¬ r9.firstVertexFormatID + r9.vertexFormatEntryCount ≤ vertexFormatDefs.length then
    .error (.invalidFmdl "Invalid vertex format entry referenced by mesh format assignment")
  else
    match expandMeshFormats bufferOffsets
        ((meshFormatDefs.drop r9.firstMeshFormatID).take r9.meshFormatEntryCount) with
    | .error e => .error e
    | .ok pairs =>
      if pairs.length ≠ r9.vertexFormatEntryCount then
        .error (.invalidFmdl "Incorrect number of mesh format definitions")
      else
        .ok ((List.range r9.vertexFormatEntryCount).map (fun i =>
          let p := pairs.getD i (0, 0)
          let v := vertexFormatDefs.getD (i + r9.firstVertexFormatID) (0, 0, 0)
          (v.1, v.2.1, p.1 + v.2.2, p.2)))

/-- Accumulator of the per-mesh vertex-field scan in `parseMeshes`. -/
structure VertexFieldScanState where
  formatFields : List ℕ
  hasNormal : Bool
  hasTangent : Bool
  hasColor : Bool
  hasBoneMapping : Bool
  hasUv0 : Bool
  hasUv1 : Bool
  hasUv2 : Bool
  hasUv3 : Bool
  hasBoneW : Bool
  hasBoneI : Bool
  uvCount : ℕ
  uvOffsets : List (ℕ × ℕ)
deriving DecidableEq, Repr

def vertexFieldScanInit : VertexFieldScanState :=
  ⟨[], false, false, false, false, false, false, false, false, false, false, 0, []⟩

def vertexFieldScanStep (st : VertexFieldScanState) (e : ℕ × ℕ × ℕ × ℕ) :
    Except PyError VertexFieldScanState :=
  let datumType := e.1
  let offset := e.2.2.1
  if datumType ∈ st.formatFields then
    .error (.invalidFmdl "Duplicate vertex field found in vertex format definition")
  else
    let st := { st with formatFields := st.formatFields ++ [datumType] }
    let st := if datumType = 2 then { st with hasNormal := true } else st
    let st := if datumType = 3 then { st with hasColor := true } else st
    let st := if datumType = 14 then { st with hasTangent := true } else st
    let st := if datumType = 8 then
      { st with hasUv0 := true, uvOffsets := st.uvOffsets ++ [(0, offset)],
                uvCount := st.uvCount + 1 } else st
    let st := if datumType = 9 then
      { st with hasUv1 := true, uvOffsets := st.uvOffsets ++ [(1, offset)],
                uvCount := st.uvCount + 1 } else st
    let st := if datumType = 10 then
      { st with hasUv2 := true, uvOffsets := st.uvOffsets ++ [(2, offset)],
                uvCount := st.uvCount + 1 } else st
    let st := if datumType = 11 then
      { st with hasUv3 := true, uvOffsets := st.uvOffsets ++ [(3, offset)],
                uvCount := st.uvCount + 1 } else st
    let st := if datumType = 1 then { st with hasBoneW := true, hasBoneMapping := true } else st
    let st := if datumType = 7 then { st with hasBoneI := true, hasBoneMapping := true } else st
    .ok st

def vertexFieldScan : VertexFieldScanState → List (ℕ × ℕ × ℕ × ℕ) →
    Except PyError VertexFieldScanState
  | st, [] => .ok st
  | st, e :: rest =>
    match vertexFieldScanStep st e with
    | .error err => .error err
    | .ok st2 => vertexFieldScan st2 rest

/-- The `VertexFields` computed for a mesh from its format entries
(`parseMeshes`, lines 602-657), including the uv monotonicity checks, the
bone-weights/bone-indices pairing check, and the `uvEqualities` map. -/
def vertexFieldsOfFormat (entries : List (ℕ × ℕ × ℕ × ℕ)) : Except PyError VertexFields :=
  match vertexFieldScan vertexFieldScanInit entries with
  | .error e => .error e
  | .ok st =>
    if st.hasUv3 ∧ ¬ st.hasUv2 then
      .error (.invalidFmdl "Non-monotonic UV map in vertex format definition: has uv3 but not uv2")
    else if st.hasUv2 ∧ ¬ st.hasUv1 then
      .error (.invalidFmdl "Non-monotonic UV map in vertex format definition: has uv2 but not uv1")
    else if st.hasUv1 ∧ ¬ st.hasUv0 then
      .error (.invalidFmdl "Non-monotonic UV map in vertex format definition: has uv1 but not uv0")
    else if st.hasBoneW ≠ st.hasBoneI then
      .error (.invalidFmdl "Invalid vertex format specification: contains one of bone weights and bone indices but not the other")
    else
      .ok
        { hasNormal := st.hasNormal
          hasTangent := st.hasTangent
          hasColor := st.hasColor
          hasBoneMapping := st.hasBoneMapping
          uvCount := st.uvCount
          uvEqualities := (List.range st.uvCount).map (fun i =>
            (i, (List.range st.uvCount).filter (fun j =>
              decide (i ≠ j) && (st.uvOffsets.lookup i == st.uvOffsets.lookup j)))) }

/-- The `VertexFields` of the C6 scenario: two uv channels, marked equal to
each other, no other optional vertex fields. -/
def uvAliasFields : VertexFields := ⟨false, false, false, false, 2, [(0, [1]), (1, [0])]⟩

lemma natLog_two_one : Nat.log 2 1 = 0 :=
  Nat.log_eq_of_pow_le_of_lt_pow (by norm_num) (by norm_num)

lemma natLog_two_two : Nat.log 2 2 = 1 :=
  Nat.log_eq_of_pow_le_of_lt_pow (by norm_num) (by norm_num)

lemma natLog_two_65504 : Nat.log 2 65504 = 15 :=
  Nat.log_eq_of_pow_le_of_lt_pow (by norm_num) (by norm_num)

lemma pyFrexp_one : pyFrexp 1 = (1 / 2, 1) := by
  rw [pyFrexp]; norm_num [natLog_two_one]

lemma pyFrexp_two : pyFrexp 2 = (1 / 2, 2) := by
  rw [pyFrexp]; norm_num [natLog_two_two]

lemma pyFrexp_65504 : pyFrexp 65504 = (2047 / 2048, 16) := by
  rw [pyFrexp]; norm_num [natLog_two_65504]

lemma encodeFloat16_one : encodeFloat16 (.finite 1) = 0x3C00 := by
  show encodeFloat16Finite 1 = 0x3C00
  rw [encodeFloat16Finite]
  rw [show |(1 : ℚ)| = 1 by norm_num, pyFrexp_one]
  norm_num
  decide

lemma encodeFloat16_negTwo : encodeFloat16 (.finite (-2)) = 0xC000 := by
  show encodeFloat16Finite (-2) = 0xC000
  rw [encodeFloat16Finite]
  rw [show |(-2 : ℚ)| = 2 by norm_num, pyFrexp_two]
  norm_num
  decide

lemma encodeFloat16_65504 : encodeFloat16 (.finite 65504) = 0x7BFF := by
  show encodeFloat16Finite 65504 = 0x7BFF
  rw [encodeFloat16Finite]
  rw [show |(65504 : ℚ)| = 65504 by norm_num, pyFrexp_65504]
  norm_num
  decide

lemma parseFloat16_one : parseFloat16 0x0001 = .finite (1 / 16777216) := by
  rw [show (0x0001 : ℕ) = 1 from rfl, parseFloat16]
  simp only [show (1 >>> 10 &&& 31 : ℕ) = 0 from by decide,
    show (1 >>> 15 &&& 1 : ℕ) = 0 from by decide,
    show (1 &&& 1023 : ℕ) = 1 from by decide]
  norm_num

lemma parseFloat16_negInf : parseFloat16 0xFC00 = .negInf := by
  rw [show (0xFC00 : ℕ) = 64512 from rfl, parseFloat16]
  simp only [show (64512 >>> 10 &&& 31 : ℕ) = 31 from by decide,
    show (64512 >>> 15 &&& 1 : ℕ) = 1 from by decide,
    show (64512 &&& 1023 : ℕ) = 0 from by decide]
  norm_num

lemma parseFloat16_encode_inf : parseFloat16 (encodeFloat16 .inf) = .inf := by
  rw [show encodeFloat16 .inf = 31744 from by decide, parseFloat16]
  simp only [show (31744 >>> 10 &&& 31 : ℕ) = 31 from by decide,
    show (31744 >>> 15 &&& 1 : ℕ) = 0 from by decide,
    show (31744 &&& 1023 : ℕ) = 0 from by decide]
  norm_num

lemma parseFloat16_encode_nan : parseFloat16 (encodeFloat16 .nan) = .nan := by
  rw [show encodeFloat16 .nan = 32767 from by decide, parseFloat16]
  simp only [show (32767 >>> 10 &&& 31 : ℕ) = 31 from by decide,
    show (32767 &&& 1023 : ℕ) = 1023 from by decide]
  norm_num

lemma parseFloat16_encode_negZero : parseFloat16 (encodeFloat16 .negZero) = .finite 0 := by
  rw [show encodeFloat16 .negZero = 0 from by decide, parseFloat16]
  simp only [show (0 >>> 10 &&& 31 : ℕ) = 0 from by decide,
    show (0 >>> 15 &&& 1 : ℕ) = 0 from by decide,
    show (0 &&& 1023 : ℕ) = 0 from by decide]
  norm_num

/-!
## Claim C3 (half-float codec samples)
-/

/-- C3 (counterexample): the claim asserts that `decode(encode(-0.0))` is
`-0.0` with the sign bit preserved; in fact `-0.0 < 0.0` is false in Python,
so `encodeFloat16` emits sign bit 0 and the round trip yields positive
zero. -/
theorem C3_counterexample :
    parseFloat16 (encodeFloat16 .negZero) = .finite 0 ∧
    parseFloat16 (encodeFloat16 .negZero) ≠ .negZero := by
  refine ⟨parseFloat16_encode_negZero, ?_⟩
  rw [parseFloat16_encode_negZero]
  exact fun h => PyFloat.noConfusion h

/-- C3 (amended): the half-float codec satisfies `encode(1.0) = 0x3C00`,
`encode(-2.0) = 0xC000`, `encode(65504.0) = 0x7BFF`,
`decode(0x0001) = 2 ^ -24 ≈ 5.96e-8`, `decode(0xFC00) = -inf`,
`decode(encode(+inf)) = +inf`, `decode(encode(nan))` is NaN; but
`decode(encode(-0.0))` is positive zero: the sign bit of negative zero is
not preserved. -/
theorem C3_theorem :
    encodeFloat16 (.finite 1) = 0x3C00 ∧
    encodeFloat16 (.finite (-2)) = 0xC000 ∧
    encodeFloat16 (.finite 65504) = 0x7BFF ∧
    parseFloat16 0x0001 = .finite (1 / 16777216) ∧
    |(1 / 16777216 : ℚ) - 596 / 10 ^ 10| < 1 / 10 ^ 9 ∧
    parseFloat16 0xFC00 = .negInf ∧
    parseFloat16 (encodeFloat16 .inf) = .inf ∧
    parseFloat16 (encodeFloat16 .nan) = .nan ∧
    parseFloat16 (encodeFloat16 .negZero) = .finite 0 :=
  ⟨encodeFloat16_one, encodeFloat16_negTwo, encodeFloat16_65504, parseFloat16_one,
    by rw [abs_of_pos (by norm_num)]; norm_num,
    parseFloat16_negInf, parseFloat16_encode_inf, parseFloat16_encode_nan,
    parseFloat16_encode_negZero⟩

/-!
## Claim C1 (face index bounds checking)
-/

/-- C1 (code bug): the bounds check in `parseFaces` reads
`if not index1 < len(vertices) and index2 < len(vertices) and index3 <
len(vertices)`, which Python parses as
`(not index1 < n) and (index2 < n) and (index3 < n)`.  For the triple
`(0, 5, 0)` against 1 vertex the test is false, so no `InvalidFmdl` is
raised and `vertices[5]` raises `IndexError`; the same happens for
`(5, 5, 5)`.  Only a triple whose first index alone is out of range, such as
`(5, 0, 0)`, produces the intended `InvalidFmdl`. -/
theorem C1_theorem :
    parseFaces (some [0, 0, 5, 0, 0, 0]) 0 0 3 1 = .error .indexError ∧
    parseFaces (some [5, 0, 5, 0, 5, 0]) 0 0 3 1 = .error .indexError ∧
    parseFaces (some [5, 0, 0, 0, 0, 0]) 0 0 3 1 =
      .error (.invalidFmdl "Invalid vertex referenced by face") ∧
    parseFaces (some [0, 0, 0, 0, 0, 0]) 0 0 3 1 = .ok [(0, 0, 0)] := by
  refine ⟨?_, ?_, ?_, ?_⟩ <;> rfl

/-!
## Claim C4 (texture string references)
-/

/-- C4 (code bug): the out-of-range branches of `parseTextures` execute
`raise InvalidFdml(...)`, a misspelling of `InvalidFmdl`, so the undefined
name raises Python `NameError` instead of the codec's `InvalidFmdl`.  A
texture record whose string ids are in range parses normally. -/
theorem C4_theorem :
    parseTextures [] [(0, 0)] = .error (.nameError "InvalidFdml") ∧
    parseTextures ["a", "b"] [(2, 0)] = .error (.nameError "InvalidFdml") ∧
    parseTextures ["a", "b"] [(0, 1)] = .ok [("a", "b")] := by
  refine ⟨?_, ?_, ?_⟩ <;> rfl

/-!
## Claim C9 (bone group only with bone indices)
-/

/-- C9: after `parseMeshes` resolves a mesh's bone group, the result is
non-null exactly when the vertex format contains the `boneIndices` datum;
when `boneIndices` is absent the record's `boneGroupID` is never
bounds-checked and cannot cause an error, and when present it is
bounds-checked against the bone-group list. -/
theorem C9_theorem (boneGroupID numBoneGroups : ℕ) :
    selectBoneGroup false boneGroupID numBoneGroups = .ok none ∧
    (∀ g, selectBoneGroup true boneGroupID numBoneGroups = .ok g → g.isSome) ∧
    (boneGroupID < numBoneGroups →
      selectBoneGroup true boneGroupID numBoneGroups = .ok (some boneGroupID)) ∧
    (numBoneGroups ≤ boneGroupID →
      selectBoneGroup true boneGroupID numBoneGroups =
        .error (.invalidFmdl "Invalid bone group ID referenced by mesh")) := by
  refine ⟨rfl, ?_, ?_, ?_⟩
  · intro g h
    by_cases hlt : boneGroupID < numBoneGroups
    · rw [selectBoneGroup, if_neg (by simp), if_neg (by simpa using hlt)] at h
      cases h
      rfl
    · rw [selectBoneGroup, if_neg (by simp), if_pos (by simpa using hlt)] at h
      cases h
  · intro hlt
    rw [selectBoneGroup, if_neg (by simp), if_neg (by simpa using hlt)]
  · intro hge
    rw [selectBoneGroup, if_neg (by simp), if_pos (by simpa using Nat.not_lt.mpr hge)]

/-- C9 (witness): concrete instances of the three behaviours. -/
theorem C9_witness :
    selectBoneGroup false 5 0 = .ok none ∧
    selectBoneGroup true 1 3 = .ok (some 1) ∧
    selectBoneGroup true 5 3 =
      .error (.invalidFmdl "Invalid bone group ID referenced by mesh") :=
  ⟨(C9_theorem 5 0).1, (C9_theorem 1 3).2.2.1 (by decide),
    (C9_theorem 5 3).2.2.2 (by decide)⟩

/-!
## Claim C10 (bone-group entry count clamped to 32 on read)
-/

lemma collectGroupBones_ok (numBones : ℕ) :
    ∀ l : List ℕ, (∀ id ∈ l, id < numBones) → collectGroupBones numBones l = .ok l := by
  intro l
  induction l with
  | nil => intro _; rfl
  | cons boneID rest ih =>
    intro h
    rw [collectGroupBones, if_neg (by simpa using h boneID (by simp)),
      ih (fun id hid => h id (by simp [hid]))]
    rfl

/-- C10: a bone-group record declaring more than 32 entries is silently
clamped to 32 on read -- the resulting group holds exactly the first 32 bone
ids of the record and no error is raised (provided those ids are in range);
more than 32 bones is an error only on write (`addBoneGroup`). -/
theorem C10_theorem (numBones entryCount : ℕ) (slots : List ℕ)
    (hcount : 32 < entryCount)
    (hvalid : ∀ id ∈ slots.take 32, id < numBones) :
    parseBoneGroupRecord numBones entryCount slots = .ok (slots.take 32) ∧
    ∀ boneIDs : List ℕ, 32 < boneIDs.length →
      addBoneGroup boneIDs = .error (.invalidFmdl "Too many bones in bone group") := by
  constructor
  · rw [parseBoneGroupRecord]
    simp only [if_pos hcount]
    exact collectGroupBones_ok numBones _ hvalid
  · intro boneIDs hlen
    rw [addBoneGroup, if_pos hlen]

/-- C10 (witness): a record declaring 33 entries over 32 valid slots. -/
theorem C10_witness :
    parseBoneGroupRecord 40 33 (List.range 32) = .ok ((List.range 32).take 32) ∧
    addBoneGroup (List.range 33) = .error (.invalidFmdl "Too many bones in bone group") := by
  have h := C10_theorem 40 33 (List.range 32) (by decide) (by decide)
  exact ⟨h.1, h.2 (List.range 33) (by simp)⟩

/-!
## Claim C2 (block padding on write)
-/

lemma pad16_length_mod (block : List ℕ) : (pad16 block).length % 16 = 0 := by
  rw [pad16]
  by_cases h : block.length % 16 = 0
  · rw [if_pos h]; exact h
  · rw [if_neg h]
    simp only [List.length_append, List.length_replicate]
    omega

/-- C2 (counterexample): the claim says every emitted block of both segments
is padded to a 16-byte multiple; but `writeStream` stores segment-1 blocks
verbatim, so a container holding a 2-byte segment-1 block emits a block of
length 2. -/
theorem C2_counterexample :
    ∃ b ∈ writeStreamSection1Blocks ⟨[], [(3, [0, 0])]⟩, b.length % 16 ≠ 0 := by
  decide

/-- C2 (amended): `writeStream` pads every segment-0 block to a 16-byte
multiple; segment-1 blocks are emitted verbatim at their stored length, with
no padding. -/
theorem C2_theorem (c : FmdlContainer) :
    (∀ b ∈ writeStreamSection0Blocks c, b.length % 16 = 0) ∧
    (∀ b ∈ writeStreamSection1Blocks c, ∃ i, c.segment1Blocks.lookup i = some b) := by
  constructor
  · intro b hb
    rw [writeStreamSection0Blocks] at hb
    obtain ⟨i, -, hi⟩ := List.mem_filterMap.mp hb
    obtain ⟨entries, -, rfl⟩ := Option.map_eq_some'.mp hi
    exact pad16_length_mod _
  · intro b hb
    rw [writeStreamSection1Blocks] at hb
    obtain ⟨i, -, hi⟩ := List.mem_filterMap.mp hb
    exact ⟨i, hi⟩

/-- C2 (witness): concrete container exercising both amended conclusions. -/
theorem C2_witness :
    (pad16 [1]).length % 16 = 0 ∧
    ∃ i, (FmdlContainer.mk [(0, [[1]])] [(1, [7])]).segment1Blocks.lookup i = some [7] :=
  ⟨(C2_theorem ⟨[(0, [[1]])], [(1, [7])]⟩).1 (pad16 [1]) (by decide),
    (C2_theorem ⟨[(0, [[1]])], [(1, [7])]⟩).2 [7] (by decide)⟩

/-!
## Claim C5 (liberal clamping of segment-1 lengths)
-/

/-- C5 (counterexample): the claim quantifies over every processed segment-1
descriptor with an over-declared length; for a descriptor whose absolute
offset lies beyond the end of the file the clamped length is negative and
Python's `bytearray(length)` raises `ValueError`, so the read does not
succeed for that block. -/
theorem C5_counterexample :
    readSegment1Block [0, 0, 0, 0] 0 [] 5 8 2 = .error .valueError := by
  rfl

/-- C5 (amended): for a segment-1 descriptor whose block id is fresh and
whose absolute offset lies within the file, if the declared length exceeds
the remaining bytes or the block id is 3, the stored block is the remainder
of the file from the absolute offset -- length `fileLength - absoluteOffset`
-- and the read succeeds for that block. -/
theorem C5_theorem (file : List ℕ) (section1Offset : ℕ) (blocks : List (ℕ × List ℕ))
    (blockID sectionOffset length : ℕ)
    (hfresh : blocks.lookup blockID = none)
    (hoff : sectionOffset + section1Offset ≤ file.length)
    (htrig : file.length - (sectionOffset + section1Offset) < length ∨ blockID = 3) :
    readSegment1Block file section1Offset blocks blockID sectionOffset length =
      .ok (blocks ++ [(blockID, file.drop (sectionOffset + section1Offset))]) ∧
    (file.drop (sectionOffset + section1Offset)).length
      = file.length - (sectionOffset + section1Offset) := by
  have hlen : (file.drop (sectionOffset + section1Offset)).length
      = file.length - (sectionOffset + section1Offset) := List.length_drop _ _
  refine ⟨?_, hlen⟩
  have htrig2 : ((file.length : ℤ) - (sectionOffset + section1Offset : ℕ) < (length : ℕ)
      ∨ blockID = 3) := by
    rcases htrig with h | h
    · left; omega
    · right; exact h
  have hclamp : ¬ ((file.length : ℤ) - (sectionOffset + section1Offset : ℕ) < 0) := by
    omega
  have htonat : ((file.length : ℤ) - (sectionOffset + section1Offset : ℕ)).toNat
      = file.length - (sectionOffset + section1Offset) := by
    omega
  simp only [readSegment1Block, hfresh, Option.isSome_none, Bool.false_eq_true, if_false]
  rw [if_pos htrig2, if_neg hclamp, htonat, ← hlen, List.take_length]
  simp

/-- C5 (witness): block id 3 with a wildly over-declared length is clamped to
the remainder of the file and the read stores exactly those bytes. -/
theorem C5_witness :
    readSegment1Block [9, 8, 7, 6] 0 [] 3 1 99 = .ok [(3, [8, 7, 6])] ∧
    ([9, 8, 7, 6] : List ℕ).length - 1 = 3 := by
  have h := C5_theorem [9, 8, 7, 6] 0 [] 3 1 99 (by decide) (by decide) (Or.inr rfl)
  refine ⟨?_, by decide⟩
  have h1 := h.1
  simpa using h1

/-!
## Claim C6 (uv aliasing round trip)
-/

/-- C6: for a mesh whose `VertexFields` has `uvCount = 2` with `uv0` and
`uv1` marked equal in `uvEqualities`, writing the format
(`addMeshFormatAssignment` on a fresh container) and reading it back yields:
the two uv block-11 records share one on-disk offset (both 0 within the data
stride); the read-back format entries for `uv0` and `uv1` have identical
absolute offsets (`dataBase` for any block-14 base offsets); and the
reconstructed `vertexFields` has `uvEqualities = {0: [1], 1: [0]}` -- the
aliasing round-trips. -/
theorem C6_theorem (posBase dataBase faceBase : ℕ) :
    (addMeshFormatAssignment uvAliasFields 0 0).block11
      = [⟨0, 1, 0⟩, ⟨8, 7, 0⟩, ⟨9, 7, 0⟩] ∧
    parseVertexFormats (addMeshFormatAssignment uvAliasFields 0 0).block11
      = .ok [(0, 1, 0), (8, 7, 0), (9, 7, 0)] ∧
    parseMeshFormatAssignment1 [posBase, dataBase, faceBase]
        (parseMeshFormats (addMeshFormatAssignment uvAliasFields 0 0).block10)
        [(0, 1, 0), (8, 7, 0), (9, 7, 0)]
        (addMeshFormatAssignment uvAliasFields 0 0).block9
      = .ok [(0, 1, posBase, 12), (8, 7, dataBase, 4), (9, 7, dataBase, 4)] ∧
    vertexFieldsOfFormat [(0, 1, posBase, 12), (8, 7, dataBase, 4), (9, 7, dataBase, 4)]
      = .ok uvAliasFields := by
  refine ⟨rfl, rfl, rfl, ?_⟩
  have hscan : vertexFieldScan vertexFieldScanInit
      [(0, 1, posBase, 12), (8, 7, dataBase, 4), (9, 7, dataBase, 4)] =
      .ok ⟨[0, 8, 9], false, false, false, false, true, true, false, false, false, false, 2,
        [(0, dataBase), (1, dataBase)]⟩ := rfl
  rw [vertexFieldsOfFormat, hscan]
  simp [uvAliasFields, show (List.range 2) = [0, 1] from rfl, List.lookup,
    List.filter, beq_self_eq_true]

/-!
## Claim C7 (parent-cycle detection and children lists)
-/

lemma seen_length_le (n : ℕ) (seen : List ℕ) (hnd : seen.Nodup)
    (hb : ∀ x ∈ seen, x < n) : seen.length ≤ n := by
  classical
  have h1 : seen.toFinset.card = seen.length := List.toFinset_card_of_nodup hnd
  have h2 : seen.toFinset ⊆ Finset.range n := by
    intro x hx
    rw [List.mem_toFinset] at hx
    exact Finset.mem_range.mpr (hb x hx)
  have := Finset.card_le_card h2
  rw [h1, Finset.card_range] at this
  exact this

lemma parentsValid_lt {parents : List (Option ℕ)} (hvalid : parentsValid parents = true)
    {i p : ℕ} (hp : pyParent parents i = some p) : p < parents.length := by
  rw [parentsValid, List.all_eq_true] at hvalid
  rw [pyParent, List.getD_eq_getElem?_getD] at hp
  cases hget : parents[i]? with
  | none => rw [hget] at hp; cases hp
  | some o =>
    rw [hget] at hp
    simp only [Option.getD_some] at hp
    subst hp
    have hmem : some p ∈ parents := List.getElem?_mem hget
    have := hvalid _ hmem
    simpa using this

lemma walkParents_ne_outOfFuel (parents : List (Option ℕ))
    (hvalid : parentsValid parents = true) :
    ∀ fuel (seen : List ℕ) (cur : ℕ), cur < parents.length → seen.Nodup →
      (∀ x ∈ seen, x < parents.length) →
      parents.length + 1 ≤ fuel + seen.length →
      walkParents parents fuel seen cur ≠ .outOfFuel := by
  intro fuel
  induction fuel with
  | zero =>
    intro seen cur hcur hnd hb hfuel
    have := seen_length_le parents.length seen hnd hb
    omega
  | succ fuel ih =>
    intro seen cur hcur hnd hb hfuel
    rw [walkParents]
    cases hp : pyParent parents cur with
    | none => simp
    | some p =>
      by_cases hmem : cur ∈ seen
      · simp [hmem]
      · simp only [hmem, if_false]
        exact ih (seen ++ [cur]) p (parentsValid_lt hvalid hp)
          (by simp [List.nodup_append, hnd, hmem])
          (by intro x hx
              rcases List.mem_append.mp hx with h | h
              · exact hb x h
              · simp at h; omega)
          (by simp; omega)

lemma parentIter_add (parents : List (Option ℕ)) :
    ∀ a b i, parentIter parents (a + b) i =
      (parentIter parents a i).bind (parentIter parents b) := by
  intro a
  induction a with
  | zero => intro b i; simp [parentIter]
  | succ a ih =>
    intro b i
    rw [Nat.succ_add]
    rw [parentIter, parentIter]
    cases hp : pyParent parents i with
    | none => simp
    | some p => simp [ih]

lemma parentIter_none_mono (parents : List (Option ℕ)) {k m i : ℕ}
    (h : parentIter parents k i = none) (hkm : k ≤ m) :
    parentIter parents m i = none := by
  have : m = k + (m - k) := by omega
  rw [this, parentIter_add, h]
  rfl

lemma parentIter_cycle_mul (parents : List (Option ℕ)) {k i : ℕ}
    (h : parentIter parents k i = some i) :
    ∀ c, parentIter parents (c * k) i = some i := by
  intro c
  induction c with
  | zero => simp [parentIter]
  | succ c ih =>
    rw [Nat.succ_mul, parentIter_add, ih]
    simpa using h

lemma walkParents_ok_imp (parents : List (Option ℕ)) :
    ∀ fuel (seen : List ℕ) (cur : ℕ), walkParents parents fuel seen cur = .ok →
      ∃ k, parentIter parents (k + 1) cur = none := by
  intro fuel
  induction fuel with
  | zero => intro seen cur h; cases h
  | succ fuel ih =>
    intro seen cur h
    rw [walkParents] at h
    cases hp : pyParent parents cur with
    | none =>
      refine ⟨0, ?_⟩
      rw [parentIter, hp]
    | some p =>
      rw [hp] at h
      by_cases hmem : cur ∈ seen
      · simp [hmem] at h
      · simp only [hmem, if_false] at h
        obtain ⟨k, hk⟩ := ih _ _ h
        refine ⟨k + 1, ?_⟩
        rw [parentIter, hp]
        exact hk

lemma cycle_walk_ne_ok (parents : List (Option ℕ)) {k i : ℕ}
    (hcyc : parentIter parents k i = some i) (hk : 0 < k) :
    ∀ fuel (seen : List ℕ), walkParents parents fuel seen i ≠ .ok := by
  intro fuel seen hok
  obtain ⟨d, hd⟩ := walkParents_ok_imp parents fuel seen i hok
  have h1 : parentIter parents ((d + 2) * k) i = some i := parentIter_cycle_mul parents hcyc _
  have hle : d + 1 ≤ (d + 2) * k := by
    calc d + 1 ≤ (d + 2) * 1 := by omega
    _ ≤ (d + 2) * k := Nat.mul_le_mul_left _ hk
  have h2 : parentIter parents ((d + 2) * k) i = none := parentIter_none_mono parents hd hle
  rw [h1] at h2
  cases h2

lemma walkParents_cycleError_imp (parents : List (Option ℕ))
    (hvalid : parentsValid parents = true) :
    ∀ fuel (seen : List ℕ) (cur start : ℕ), cur < parents.length →
      (∀ j, j < seen.length → parentIter parents j start = some (seen.getD j 0)) →
      parentIter parents seen.length start = some cur →
      walkParents parents fuel seen cur = .cycleError →
      HasParentCycle parents := by
  intro fuel
  induction fuel with
  | zero => intro seen cur start _ _ _ h; cases h
  | succ fuel ih =>
    intro seen cur start hcur hinv hlast h
    rw [walkParents] at h
    cases hp : pyParent parents cur with
    | none => rw [hp] at h; cases h
    | some p =>
      rw [hp] at h
      by_cases hmem : cur ∈ seen
      · obtain ⟨j, hj, hjeq⟩ := List.mem_iff_getElem.mp hmem
        have hgetd : seen.getD j 0 = cur := by
          rw [List.getD_eq_getElem?_getD, List.getElem?_eq_getElem hj, Option.getD_some, hjeq]
        have hj1 : parentIter parents j start = some cur := by
          rw [hinv j hj, hgetd]
        have hsplit : parentIter parents (j + (seen.length - j)) start = some cur := by
          rw [show j + (seen.length - j) = seen.length by omega]
          exact hlast
        rw [parentIter_add, hj1] at hsplit
        exact ⟨cur, hcur, seen.length - j, by omega, hsplit⟩
      · simp only [hmem, if_false] at h
        refine ih (seen ++ [cur]) p start (parentsValid_lt hvalid hp) ?_ ?_ h
        · intro j hj
          rw [List.length_append, List.length_singleton] at hj
          by_cases hjlt : j < seen.length
          · rw [List.getD_append _ _ _ _ hjlt]
            exact hinv j hjlt
          · have hjeq : j = seen.length := by omega
            subst hjeq
            rw [List.getD_append_right _ _ _ _ (le_refl _), Nat.sub_self]
            exact hlast
        · rw [List.length_append, List.length_singleton, parentIter_add, hlast]
          show parentIter parents 1 cur = some p
          rw [parentIter, hp]
          rfl

lemma getD_map_range (m : ℕ) (F : ℕ → List ℕ) (p : ℕ) (hp : p < m) :
    ((List.range m).map F).getD p [] = F p := by
  rw [List.getD_eq_getElem?_getD, List.getElem?_map, List.getElem?_range hp]
  rfl

lemma set_map_range {α : Type} (m : ℕ) (F : ℕ → α) (p : ℕ) (v : α) :
    ((List.range m).map F).set p v
      = (List.range m).map (fun q => if q = p then v else F q) := by
  apply List.ext_getElem (by simp)
  intro i h1 h2
  simp only [List.getElem_set, List.getElem_map, List.getElem_range]
  by_cases hip : p = i
  · rw [if_pos hip, if_pos hip.symm]
  · rw [if_neg hip, if_neg (fun hh => hip hh.symm)]

lemma scatterAppend_succ (n m : ℕ) (key : ℕ → Option ℕ) :
    scatterAppend (n + 1) m key =
      match key n with
      | none => scatterAppend n m key
      | some p => (scatterAppend n m key).set p ((scatterAppend n m key).getD p [] ++ [n]) := by
  rw [scatterAppend, List.range_succ, List.foldl_append, List.foldl_cons, List.foldl_nil]
  rfl

lemma scatterAppend_eq_map (n m : ℕ) (key : ℕ → Option ℕ)
    (hkey : ∀ i p, key i = some p → p < m) :
    scatterAppend n m key =
      (List.range m).map (fun p => (List.range n).filter (fun i => decide (key i = some p))) := by
  induction n with
  | zero =>
    rw [scatterAppend, List.range_zero, List.foldl_nil]
    simp [List.map_const']
  | succ n ih =>
    rw [scatterAppend_succ]
    cases hk : key n with
    | none =>
      have hfil : ∀ p, (List.range (n + 1)).filter (fun i => decide (key i = some p))
          = (List.range n).filter (fun i => decide (key i = some p)) := by
        intro p
        rw [List.range_succ, List.filter_append]
        simp [hk]
      simp only [hfil]
      exact ih
    | some p =>
      have hpm : p < m := hkey n p hk
      show (scatterAppend n m key).set p ((scatterAppend n m key).getD p [] ++ [n]) = _
      rw [ih, getD_map_range m _ p hpm, set_map_range]
      apply List.map_congr_left
      intro q hq
      by_cases hqp : q = p
      · subst hqp
        rw [if_pos rfl, List.range_succ, List.filter_append]
        simp [hk]
      · rw [if_neg hqp, List.range_succ, List.filter_append]
        simp [hk, Ne.symm hqp]

/-- C7: for a bone or mesh-group graph with validly resolved parent links,
the loop-check pass raises the `ParentCycle` error exactly when some node's
parent chain contains a cycle; when there is no cycle the pass raises
nothing, and the children lists built by the resolution pass list, for each
node `p`, exactly the nodes whose parent is `p`, in source order. -/
theorem C7_theorem (parents : List (Option ℕ)) (hvalid : parentsValid parents = true) :
    (checkParentLoops parents = true ↔ HasParentCycle parents) ∧
    buildChildren parents = (List.range parents.length).map (fun p =>
      (List.range parents.length).filter (fun i => decide (pyParent parents i = some p))) := by
  constructor
  · constructor
    · intro hchk
      rw [checkParentLoops, List.any_eq_true] at hchk
      obtain ⟨i, hi, hwalk⟩ := hchk
      rw [List.mem_range] at hi
      have hne : walkParents parents (parents.length + 1) [] i ≠ .ok := by
        simpa using hwalk
      have hnf : walkParents parents (parents.length + 1) [] i ≠ .outOfFuel :=
        walkParents_ne_outOfFuel parents hvalid _ [] i hi List.nodup_nil
          (by intro x hx; cases hx) (by simp)
      have hcy : walkParents parents (parents.length + 1) [] i = .cycleError := by
        cases hres : walkParents parents (parents.length + 1) [] i
        · exact absurd hres hne
        · rfl
        · exact absurd hres hnf
      exact walkParents_cycleError_imp parents hvalid _ [] i i hi
        (by intro j hj; cases hj) rfl hcy
    · rintro ⟨i, hi, k, hk, hcyc⟩
      rw [checkParentLoops, List.any_eq_true]
      refine ⟨i, List.mem_range.mpr hi, ?_⟩
      have hne := cycle_walk_ne_ok parents hcyc hk (parents.length + 1) []
      simpa using hne
  · exact scatterAppend_eq_map parents.length parents.length (pyParent parents)
      (fun i p hp => parentsValid_lt hvalid hp)

/-- C7 (witness): the two-bone cycle A.parent = B, B.parent = A is detected;
for the same graph the children lists pair each bone with the other. -/
theorem C7_witness :
    checkParentLoops [some 1, some 0] = true ∧
    buildChildren [some 1, some 0] = [[1], [0]] := by
  have h := C7_theorem [some 1, some 0] (by decide)
  refine ⟨h.1.mpr ⟨0, by decide, 2, by decide, by decide⟩, ?_⟩
  rw [h.2]
  decide

/-!
## Claim C8 (mesh-group assignment coverage)
-/

lemma getD_set_self {α : Type} {l : List α} {i : ℕ} (h : i < l.length) (v d : α) :
    (l.set i v).getD i d = v := by
  rw [List.getD_eq_getElem?_getD, List.getElem?_set_self (by simpa using h)]
  rfl

lemma getD_set_ne {α : Type} {l : List α} {i j : ℕ} (h : j ≠ i) (v d : α) :
    (l.set j v).getD i d = l.getD i d := by
  rw [List.getD_eq_getElem?_getD, List.getElem?_set_ne h, ← List.getD_eq_getElem?_getD]

lemma getD_replicate_none {n i : ℕ} :
    ((List.replicate n (none : Option ℕ)).getD i none) = none := by
  rw [List.getD_eq_getElem?_getD, List.getElem?_replicate]
  by_cases h : i < n <;> simp [h]

lemma fillAssignments_ok (gid : ℕ) : ∀ (count first : ℕ) (a : List (Option ℕ)),
    first + count ≤ a.length →
    (∀ i, first ≤ i → i < first + count → a.getD i none = none) →
    ∃ a', fillAssignments a gid first count = .ok a' ∧
      a'.length = a.length ∧
      ∀ i, a'.getD i none =
        if first ≤ i ∧ i < first + count then some gid else a.getD i none := by
  intro count
  induction count with
  | zero =>
    intro first a _ _
    refine ⟨a, rfl, rfl, ?_⟩
    intro i
    rw [if_neg (by omega)]
  | succ count ih =>
    intro first a hlen hnone
    have hfirst : a.getD first none = none := hnone first (le_refl _) (by omega)
    rw [fillAssignments, hfirst]
    have hflt : first < a.length := by omega
    obtain ⟨a', heq, hlen', hchar⟩ := ih (first + 1) (a.set first (some gid))
      (by simpa using by omega)
      (by intro i h1 h2
          rw [getD_set_ne (by omega)]
          exact hnone i (by omega) (by simpa using by omega))
    refine ⟨a', heq, by simpa using hlen', ?_⟩
    intro i
    rw [hchar i]
    by_cases hi : first + 1 ≤ i ∧ i < first + 1 + count
    · rw [if_pos hi, if_pos (by omega)]
    · rw [if_neg hi]
      by_cases hif : i = first
      · subst hif
        rw [getD_set_self hflt, if_pos (by omega)]
      · rw [getD_set_ne (fun hh => hif hh.symm), if_neg (by omega)]

lemma fillAssignments_error (gid : ℕ) : ∀ (count first : ℕ) (a : List (Option ℕ)),
    (∃ i, first ≤ i ∧ i < first + count ∧ a.getD i none ≠ none) →
    fillAssignments a gid first count =
      .error (.invalidFmdl "Invalid double mesh group assignment") := by
  intro count
  induction count with
  | zero =>
    rintro first a ⟨i, h1, h2, _⟩
    omega
  | succ count ih =>
    rintro first a ⟨i, h1, h2, hne⟩
    rw [fillAssignments]
    cases hfirst : a.getD first none with
    | some g => rfl
    | none =>
      apply ih
      have hif : i ≠ first := by
        intro hh
        rw [hh, hfirst] at hne
        exact hne rfl
      refine ⟨i, by omega, by omega, ?_⟩
      rw [getD_set_ne (Ne.symm hif)]
      exact hne


lemma coverageCount_cons (r : MeshGroupAssignment) (rest : List MeshGroupAssignment) (i : ℕ) :
    coverageCount (r :: rest) i
      = coverageCount rest i + (if covers r i then 1 else 0) := by
  rw [coverageCount, coverageCount, List.countP_cons]
  by_cases h : covers r i <;> simp [h]

lemma coverageCount_rest_le (r : MeshGroupAssignment) (rest : List MeshGroupAssignment)
    (i : ℕ) : coverageCount rest i ≤ coverageCount (r :: rest) i := by
  rw [coverageCount_cons]
  exact Nat.le_add_right _ _

lemma process_cons_reduce_some (numMeshes numMeshGroups numBoundingBoxes : ℕ)
    (r : MeshGroupAssignment) (rest : List MeshGroupAssignment)
    (a gb a2 : List (Option ℕ)) (c : ℕ)
    (hgid : r.meshGroupID < numMeshGroups)
    (hrange : r.firstMeshIndex + r.meshCount ≤ numMeshes)
    (hbb : r.boundingBoxID < numBoundingBoxes)
    (hfill : fillAssignments a r.meshGroupID r.firstMeshIndex r.meshCount = .ok a2)
    (hgb : gb.getD r.meshGroupID none = some c) (hc : c = r.boundingBoxID) :
    processMeshGroupAssignments numMeshes numMeshGroups numBoundingBoxes (r :: rest) a gb
      = processMeshGroupAssignments numMeshes numMeshGroups numBoundingBoxes rest a2
          (gb.set r.meshGroupID (some r.boundingBoxID)) := by
  rw [processMeshGroupAssignments, if_neg (by simpa using hgid),
    if_neg (by simpa using hrange), if_neg (by simpa using hbb), hfill, hgb]
  subst hc
  simp

lemma process_cons_reduce_none (numMeshes numMeshGroups numBoundingBoxes : ℕ)
    (r : MeshGroupAssignment) (rest : List MeshGroupAssignment)
    (a gb a2 : List (Option ℕ))
    (hgid : r.meshGroupID < numMeshGroups)
    (hrange : r.firstMeshIndex + r.meshCount ≤ numMeshes)
    (hbb : r.boundingBoxID < numBoundingBoxes)
    (hfill : fillAssignments a r.meshGroupID r.firstMeshIndex r.meshCount = .ok a2)
    (hgb : gb.getD r.meshGroupID none = none) :
    processMeshGroupAssignments numMeshes numMeshGroups numBoundingBoxes (r :: rest) a gb
      = processMeshGroupAssignments numMeshes numMeshGroups numBoundingBoxes rest a2
          (gb.set r.meshGroupID (some r.boundingBoxID)) := by
  rw [processMeshGroupAssignments, if_neg (by simpa using hgid),
    if_neg (by simpa using hrange), if_neg (by simpa using hbb), hfill, hgb]

lemma process_cons_fill_error (numMeshes numMeshGroups numBoundingBoxes : ℕ)
    (r : MeshGroupAssignment) (rest : List MeshGroupAssignment)
    (a gb : List (Option ℕ)) (e : PyError)
    (hgid : r.meshGroupID < numMeshGroups)
    (hrange : r.firstMeshIndex + r.meshCount ≤ numMeshes)
    (hbb : r.boundingBoxID < numBoundingBoxes)
    (hfill : fillAssignments a r.meshGroupID r.firstMeshIndex r.meshCount = .error e) :
    processMeshGroupAssignments numMeshes numMeshGroups numBoundingBoxes (r :: rest) a gb
      = .error e := by
  rw [processMeshGroupAssignments, if_neg (by simpa using hgid),
    if_neg (by simpa using hrange), if_neg (by simpa using hbb), hfill]

lemma process_ok (numMeshes numMeshGroups numBoundingBoxes : ℕ) :
    ∀ (records : List MeshGroupAssignment) (a gb : List (Option ℕ)),
    assignmentRecordsValid numMeshes numMeshGroups numBoundingBoxes records = true →
    (∀ r ∈ records, ∀ s ∈ records, r.meshGroupID = s.meshGroupID →
      r.boundingBoxID = s.boundingBoxID) →
    (∀ r ∈ records, ∀ b, gb.getD r.meshGroupID none = some b → b = r.boundingBoxID) →
    a.length = numMeshes → gb.length = numMeshGroups →
    (∀ i, a.getD i none ≠ none → coverageCount records i = 0) →
    (∀ i, coverageCount records i ≤ 1) →
    ∃ a' gb',
      processMeshGroupAssignments numMeshes numMeshGroups numBoundingBoxes records a gb
        = .ok (a', gb') ∧
      a'.length = numMeshes ∧
      ∀ i, a'.getD i none =
        match records.find? (fun r => decide (covers r i)) with
        | some r => some r.meshGroupID
        | none => a.getD i none := by
  intro records
  induction records with
  | nil =>
    intro a gb _ _ _ hlen _ _ _
    exact ⟨a, gb, rfl, hlen, fun i => rfl⟩
  | cons r rest ih =>
    intro a gb hval hpair hfit hlen hglen hdisj hcov
    rw [assignmentRecordsValid, List.all_cons, Bool.and_eq_true, Bool.and_eq_true,
      Bool.and_eq_true] at hval
    obtain ⟨⟨⟨hgid, hrange⟩, hbb⟩, hvalrest⟩ := hval
    rw [decide_eq_true_eq] at hgid hrange hbb
    have hvalrest' : assignmentRecordsValid numMeshes numMeshGroups numBoundingBoxes rest
        = true := hvalrest
    have hnone : ∀ i, r.firstMeshIndex ≤ i → i < r.firstMeshIndex + r.meshCount →
        a.getD i none = none := by
      intro i h1 h2
      by_contra hne
      have h0 := hdisj i hne
      rw [coverageCount_cons, if_pos (show covers r i from ⟨h1, h2⟩)] at h0
      omega
    obtain ⟨a2, hfill, hlen2, hchar⟩ := fillAssignments_ok r.meshGroupID r.meshCount
      r.firstMeshIndex a (by omega) hnone
    have hrec : ∀ gb2 : List (Option ℕ), gb2 = gb.set r.meshGroupID (some r.boundingBoxID) →
        ∃ a' gb',
          processMeshGroupAssignments numMeshes numMeshGroups numBoundingBoxes rest a2 gb2
            = .ok (a', gb') ∧
          a'.length = numMeshes ∧
          ∀ i, a'.getD i none =
            match rest.find? (fun s => decide (covers s i)) with
            | some s => some s.meshGroupID
            | none => a2.getD i none := by
      intro gb2 hgb2
      apply ih a2 gb2 hvalrest'
        (fun x hx y hy => hpair x (by simp [hx]) y (by simp [hy]))
      · intro s hs b hb
        subst hgb2
        by_cases hsg : s.meshGroupID = r.meshGroupID
        · rw [hsg, getD_set_self (by omega)] at hb
          cases hb
          exact hpair r (by simp) s (by simp [hs]) hsg.symm
        · rw [getD_set_ne (fun hh => hsg hh.symm)] at hb
          exact hfit s (by simp [hs]) b hb
      · omega
      · subst hgb2; simpa using hglen
      · intro i hne
        rw [hchar i] at hne
        by_cases hin : r.firstMeshIndex ≤ i ∧ i < r.firstMeshIndex + r.meshCount
        · have := hcov i
          rw [coverageCount_cons, if_pos (show covers r i from hin)] at this
          omega
        · rw [if_neg hin] at hne
          have h0 := hdisj i hne
          have hle := coverageCount_rest_le r rest i
          omega
      · intro i
        exact le_trans (coverageCount_rest_le r rest i) (hcov i)
    have hfinal : ∀ a' : List (Option ℕ),
        (∀ i, a'.getD i none =
          match rest.find? (fun s => decide (covers s i)) with
          | some s => some s.meshGroupID
          | none => a2.getD i none) →
        ∀ i, a'.getD i none =
          match (r :: rest).find? (fun s => decide (covers s i)) with
          | some s => some s.meshGroupID
          | none => a.getD i none := by
      intro a' hchar' i
      rw [hchar' i]
      by_cases hri : covers r i
      · rw [List.find?_cons_of_pos _ (by simpa using hri)]
        have hrest0 : coverageCount rest i = 0 := by
          have := hcov i
          rw [coverageCount_cons, if_pos hri] at this
          omega
        have hfind : rest.find? (fun s => decide (covers s i)) = none := by
          rw [List.find?_eq_none]
          intro s hs hcs
          rw [coverageCount] at hrest0
          exact List.countP_eq_zero.mp hrest0 s hs hcs
        rw [hfind, hchar i,
          if_pos (show r.firstMeshIndex ≤ i ∧ i < r.firstMeshIndex + r.meshCount from hri)]
      · rw [List.find?_cons_of_neg _ (by simpa using hri)]
        cases hf : rest.find? (fun s => decide (covers s i)) with
        | some s => rfl
        | none =>
          rw [hchar i,
            if_neg (show ¬ (r.firstMeshIndex ≤ i ∧ i < r.firstMeshIndex + r.meshCount) from hri)]
    obtain ⟨a', gb', hrun, hlen', hchar'⟩ := hrec _ rfl
    cases hgb : gb.getD r.meshGroupID none with
    | some b =>
      rw [process_cons_reduce_some numMeshes numMeshGroups numBoundingBoxes r rest a gb a2 b
        hgid hrange hbb hfill hgb (hfit r (by simp) b hgb)]
      exact ⟨a', gb', hrun, hlen', hfinal a' hchar'⟩
    | none =>
      rw [process_cons_reduce_none numMeshes numMeshGroups numBoundingBoxes r rest a gb a2
        hgid hrange hbb hfill hgb]
      exact ⟨a', gb', hrun, hlen', hfinal a' hchar'⟩


lemma process_dup (numMeshes numMeshGroups numBoundingBoxes : ℕ) :
    ∀ (records : List MeshGroupAssignment) (a gb : List (Option ℕ)),
    assignmentRecordsValid numMeshes numMeshGroups numBoundingBoxes records = true →
    (∀ r ∈ records, ∀ s ∈ records, r.meshGroupID = s.meshGroupID →
      r.boundingBoxID = s.boundingBoxID) →
    (∀ r ∈ records, ∀ b, gb.getD r.meshGroupID none = some b → b = r.boundingBoxID) →
    a.length = numMeshes → gb.length = numMeshGroups →
    (∃ i, (if a.getD i none = none then 0 else 1) + coverageCount records i ≥ 2) →
    processMeshGroupAssignments numMeshes numMeshGroups numBoundingBoxes records a gb
      = .error (.invalidFmdl "Invalid double mesh group assignment") := by
  intro records
  induction records with
  | nil =>
    rintro a gb _ _ _ _ _ ⟨i, hi⟩
    rw [coverageCount, List.countP_nil] at hi
    by_cases h : a.getD i none = none
    · rw [if_pos h] at hi; omega
    · rw [if_neg h] at hi; omega
  | cons r rest ih =>
    rintro a gb hval hpair hfit hlen hglen ⟨i, hi⟩
    rw [assignmentRecordsValid, List.all_cons, Bool.and_eq_true, Bool.and_eq_true,
      Bool.and_eq_true] at hval
    obtain ⟨⟨⟨hgid, hrange⟩, hbb⟩, hvalrest⟩ := hval
    rw [decide_eq_true_eq] at hgid hrange hbb
    by_cases hdup : ∃ j, r.firstMeshIndex ≤ j ∧ j < r.firstMeshIndex + r.meshCount ∧
        a.getD j none ≠ none
    · exact process_cons_fill_error numMeshes numMeshGroups numBoundingBoxes r rest a gb _
        hgid hrange hbb (fillAssignments_error r.meshGroupID r.meshCount r.firstMeshIndex a hdup)
    · push_neg at hdup
      have hnone : ∀ j, r.firstMeshIndex ≤ j → j < r.firstMeshIndex + r.meshCount →
          a.getD j none = none := hdup
      obtain ⟨a2, hfill, hlen2, hchar⟩ := fillAssignments_ok r.meshGroupID r.meshCount
        r.firstMeshIndex a (by omega) hnone
      have hrec : processMeshGroupAssignments numMeshes numMeshGroups numBoundingBoxes rest a2
          (gb.set r.meshGroupID (some r.boundingBoxID))
          = .error (.invalidFmdl "Invalid double mesh group assignment") := by
        apply ih a2 _ hvalrest
          (fun x hx y hy => hpair x (by simp [hx]) y (by simp [hy]))
        · intro s hs b hb
          by_cases hsg : s.meshGroupID = r.meshGroupID
          · rw [hsg, getD_set_self (by omega)] at hb
            cases hb
            exact hpair r (by simp) s (by simp [hs]) hsg.symm
          · rw [getD_set_ne (fun hh => hsg hh.symm)] at hb
            exact hfit s (by simp [hs]) b hb
        · omega
        · simpa using hglen
        · refine ⟨i, ?_⟩
          rw [coverageCount_cons] at hi
          rw [hchar i]
          by_cases hin : r.firstMeshIndex ≤ i ∧ i < r.firstMeshIndex + r.meshCount
          · rw [if_pos hin]
            have ha : a.getD i none = none := hnone i hin.1 hin.2
            rw [if_pos ha, if_pos (show covers r i from hin)] at hi
            simp only [show (some r.meshGroupID = none) = False from by simp, if_false]
            omega
          · rw [if_neg hin]
            rw [if_neg (show ¬ covers r i from hin)] at hi
            omega
      cases hgb : gb.getD r.meshGroupID none with
      | some b =>
        rw [process_cons_reduce_some numMeshes numMeshGroups numBoundingBoxes r rest a gb a2 b
          hgid hrange hbb hfill hgb (hfit r (by simp) b hgb)]
        exact hrec
      | none =>
        rw [process_cons_reduce_none numMeshes numMeshGroups numBoundingBoxes r rest a gb a2
          hgid hrange hbb hfill hgb]
        exact hrec

lemma assignmentRecordsValid_mem {numMeshes numMeshGroups numBoundingBoxes : ℕ}
    {records : List MeshGroupAssignment} {r : MeshGroupAssignment}
    (hval : assignmentRecordsValid numMeshes numMeshGroups numBoundingBoxes records = true)
    (hr : r ∈ records) :
    r.meshGroupID < numMeshGroups ∧ r.firstMeshIndex + r.meshCount ≤ numMeshes ∧
      r.boundingBoxID < numBoundingBoxes := by
  rw [assignmentRecordsValid, List.all_eq_true] at hval
  have hx := hval r hr
  rw [Bool.and_eq_true, Bool.and_eq_true] at hx
  obtain ⟨⟨h1, h2⟩, h3⟩ := hx
  exact ⟨of_decide_eq_true h1, of_decide_eq_true h2, of_decide_eq_true h3⟩

lemma coverage_out {numMeshes numMeshGroups numBoundingBoxes : ℕ}
    {records : List MeshGroupAssignment}
    (hval : assignmentRecordsValid numMeshes numMeshGroups numBoundingBoxes records = true) :
    ∀ i, numMeshes ≤ i → coverageCount records i = 0 := by
  intro i hn
  rw [coverageCount, List.countP_eq_zero]
  intro r hr hc
  obtain ⟨-, hrange, -⟩ := assignmentRecordsValid_mem hval hr
  obtain ⟨h1, h2⟩ := of_decide_eq_true hc
  omega

lemma count_filter_range (n i : ℕ) (q : ℕ → Bool) :
    ((List.range n).filter q).count i = if i < n ∧ q i then 1 else 0 := by
  by_cases h : i < n ∧ q i
  · rw [if_pos h]
    exact List.count_eq_one_of_mem ((List.nodup_range n).filter q)
      (List.mem_filter.mpr ⟨List.mem_range.mpr h.1, h.2⟩)
  · rw [if_neg h]
    apply List.count_eq_zero_of_not_mem
    intro hmem
    rcases List.mem_filter.mp hmem with ⟨h1, h2⟩
    exact h ⟨List.mem_range.mp h1, h2⟩

lemma sum_indicator_range (g a : ℕ) :
    ((List.range g).map (fun p => if a = p then 1 else 0)).sum
      = if a < g then 1 else 0 := by
  induction g with
  | zero => simp
  | succ g ih =>
    rw [List.range_succ, List.map_append, List.sum_append, ih]
    by_cases h : a < g
    · rw [if_pos h, if_pos (by omega)]
      simp [show a ≠ g by omega]
    · by_cases h2 : a = g
      · subst h2
        rw [if_neg h, if_pos (by omega)]
        simp
      · rw [if_neg h, if_neg (by omega)]
        simp [h2]

lemma assignMeshes_reduce (numMeshes numMeshGroups numBoundingBoxes : ℕ)
    (records : List MeshGroupAssignment) (a' gb' : List (Option ℕ))
    (h : processMeshGroupAssignments numMeshes numMeshGroups numBoundingBoxes records
      (List.replicate numMeshes none) (List.replicate numMeshGroups none) = .ok (a', gb')) :
    assignMeshesToGroups numMeshes numMeshGroups numBoundingBoxes records
      = if none ∈ a' then .error (.invalidFmdl "Mesh not assigned to mesh group")
        else .ok (scatterAppend numMeshes numMeshGroups (fun i => a'.getD i none)) := by
  rw [assignMeshesToGroups, h]


/-- C8 (amended): under valid record references and consistent per-group
bounding boxes: if some mesh index is covered by two assignment records the
read fails with the duplicate-assignment error (raised while the records are
processed); if no index is double-covered but some mesh index is covered by
no record, the read fails with the unassigned-mesh error; and if every mesh
index is covered exactly once the read succeeds and every mesh appears in
the meshes list of exactly one mesh group (exactly once in total across all
group lists). -/
theorem C8_theorem (numMeshes numMeshGroups numBoundingBoxes : ℕ)
    (records : List MeshGroupAssignment)
    (hval : assignmentRecordsValid numMeshes numMeshGroups numBoundingBoxes records = true)
    (hbox : BoxesConsistent records) :
    ((∃ i, 2 ≤ coverageCount records i) →
      assignMeshesToGroups numMeshes numMeshGroups numBoundingBoxes records
        = .error (.invalidFmdl "Invalid double mesh group assignment")) ∧
    ((∀ i < numMeshes, coverageCount records i ≤ 1) →
      (∃ i < numMeshes, coverageCount records i = 0) →
      assignMeshesToGroups numMeshes numMeshGroups numBoundingBoxes records
        = .error (.invalidFmdl "Mesh not assigned to mesh group")) ∧
    ((∀ i < numMeshes, coverageCount records i = 1) →
      ∃ groupMeshes,
        assignMeshesToGroups numMeshes numMeshGroups numBoundingBoxes records
          = .ok groupMeshes ∧
        groupMeshes.length = numMeshGroups ∧
        ∀ i < numMeshes, (groupMeshes.map (fun meshes => meshes.count i)).sum = 1) := by
  have hfit0 : ∀ r ∈ records, ∀ b : ℕ,
      (List.replicate numMeshGroups (none : Option ℕ)).getD r.meshGroupID none = some b →
      b = r.boundingBoxID := by
    intro r _ b hb
    rw [getD_replicate_none] at hb
    cases hb
  refine ⟨?_, ?_, ?_⟩
  · rintro ⟨i, hi⟩
    have hd := process_dup numMeshes numMeshGroups numBoundingBoxes records
      (List.replicate numMeshes none) (List.replicate numMeshGroups none) hval hbox hfit0
      (List.length_replicate _ _) (List.length_replicate _ _)
      ⟨i, by rw [getD_replicate_none, if_pos rfl]; omega⟩
    rw [assignMeshesToGroups, hd]
  · rintro hle ⟨i0, hi0, hcov0⟩
    obtain ⟨a', gb', hokEq, hlen', hchar⟩ := process_ok numMeshes numMeshGroups numBoundingBoxes
      records (List.replicate numMeshes none) (List.replicate numMeshGroups none) hval hbox hfit0
      (List.length_replicate _ _) (List.length_replicate _ _)
      (fun i hne => absurd getD_replicate_none hne)
      (by intro i
          by_cases h : i < numMeshes
          · exact hle i h
          · rw [coverage_out hval i (by omega)]
            omega)
    have hfind : records.find? (fun s => decide (covers s i0)) = none := by
      rw [List.find?_eq_none]
      intro s hs hcs
      rw [coverageCount] at hcov0
      exact List.countP_eq_zero.mp hcov0 s hs hcs
    have hmem : (none : Option ℕ) ∈ a' := by
      have hgd : a'.getD i0 none = none := by
        rw [hchar i0, hfind, getD_replicate_none]
      have hi0' : i0 < a'.length := by omega
      rw [List.getD_eq_getElem?_getD, List.getElem?_eq_getElem hi0', Option.getD_some] at hgd
      exact hgd ▸ List.getElem_mem hi0'
    rw [assignMeshes_reduce numMeshes numMeshGroups numBoundingBoxes records a' gb' hokEq,
      if_pos hmem]
  · intro hcov1
    obtain ⟨a', gb', hokEq, hlen', hchar⟩ := process_ok numMeshes numMeshGroups numBoundingBoxes
      records (List.replicate numMeshes none) (List.replicate numMeshGroups none) hval hbox hfit0
      (List.length_replicate _ _) (List.length_replicate _ _)
      (fun i hne => absurd getD_replicate_none hne)
      (by intro i
          by_cases h : i < numMeshes
          · exact le_of_eq (hcov1 i h)
          · rw [coverage_out hval i (by omega)]
            omega)
    have hkey_some : ∀ i, i < numMeshes →
        ∃ r, records.find? (fun s => decide (covers s i)) = some r ∧
          a'.getD i none = some r.meshGroupID ∧ r ∈ records := by
      intro i hi
      have h1 := hcov1 i hi
      have hex : ∃ x ∈ records, (fun s => decide (covers s i)) x = true := by
        by_contra hno
        push_neg at hno
        have hz : coverageCount records i = 0 := by
          rw [coverageCount, List.countP_eq_zero]
          intro s hs hc
          exact absurd hc (by simpa using hno s hs)
        omega
      have hsome : (records.find? (fun s => decide (covers s i))).isSome :=
        List.find?_isSome.mpr hex
      obtain ⟨r, hr⟩ := Option.isSome_iff_exists.mp hsome
      refine ⟨r, hr, ?_, List.mem_of_find?_eq_some hr⟩
      rw [hchar i, hr]
    have hkeybound : ∀ i p, a'.getD i none = some p → p < numMeshGroups := by
      intro i p hp
      rw [hchar i] at hp
      cases hf : records.find? (fun s => decide (covers s i)) with
      | none =>
        rw [hf, getD_replicate_none] at hp
        cases hp
      | some r =>
        rw [hf] at hp
        cases hp
        exact (assignmentRecordsValid_mem hval (List.mem_of_find?_eq_some hf)).1
    have hnonmem : (none : Option ℕ) ∉ a' := by
      intro hmem
      obtain ⟨j, hj, hEq⟩ := List.mem_iff_getElem.mp hmem
      obtain ⟨r, hfr, hgd, -⟩ := hkey_some j (by omega)
      rw [List.getD_eq_getElem?_getD, List.getElem?_eq_getElem hj, Option.getD_some, hEq] at hgd
      cases hgd
    refine ⟨scatterAppend numMeshes numMeshGroups (fun i => a'.getD i none), ?_, ?_, ?_⟩
    · rw [assignMeshes_reduce numMeshes numMeshGroups numBoundingBoxes records a' gb' hokEq,
        if_neg hnonmem]
    · rw [scatterAppend_eq_map _ _ _ hkeybound]
      simp
    · intro i hi
      obtain ⟨r, hfr, hgd, hrmem⟩ := hkey_some i hi
      have hgidlt : r.meshGroupID < numMeshGroups :=
        (assignmentRecordsValid_mem hval hrmem).1
      rw [scatterAppend_eq_map _ _ _ hkeybound, List.map_map]
      have hterm : ∀ p ∈ List.range numMeshGroups,
          ((fun meshes => meshes.count i) ∘
            (fun p => (List.range numMeshes).filter
              (fun j => decide (a'.getD j none = some p)))) p
          = (fun p => if r.meshGroupID = p then 1 else 0) p := by
        intro p _
        show ((List.range numMeshes).filter
            (fun j => decide (a'.getD j none = some p))).count i
          = if r.meshGroupID = p then 1 else 0
        rw [count_filter_range]
        by_cases hp : r.meshGroupID = p
        · rw [if_pos hp, if_pos ⟨hi, by rw [hgd, hp]; simp⟩]
        · rw [if_neg hp, if_neg]
          rintro ⟨-, hc⟩
          have hcc := of_decide_eq_true hc
          rw [hgd] at hcc
          cases hcc
          exact hp rfl
      rw [List.map_congr_left hterm, sum_indicator_range, if_pos hgidlt]


/-- C8 (counterexample): the claim states the two failure modes
unconditionally, but when one mesh index is double-covered and another is
uncovered the read fails with the duplicate-assignment error, not with
`UnassignedMesh`: duplicate detection happens while records are processed,
the unassigned check only afterwards. -/
theorem C8_counterexample :
    assignMeshesToGroups 2 1 1 [⟨0, 0, 1, 0⟩, ⟨0, 0, 1, 0⟩]
      = .error (.invalidFmdl "Invalid double mesh group assignment") ∧
    assignMeshesToGroups 2 1 1 [⟨0, 0, 1, 0⟩, ⟨0, 0, 1, 0⟩]
      ≠ .error (.invalidFmdl "Mesh not assigned to mesh group") := by
  refine ⟨rfl, ?_⟩
  intro h
  have h0 : assignMeshesToGroups 2 1 1 [⟨0, 0, 1, 0⟩, ⟨0, 0, 1, 0⟩]
      = Except.error (α := List (List ℕ))
        (.invalidFmdl "Invalid double mesh group assignment") := rfl
  rw [h0] at h
  simp at h

/-- C8 (witness): a two-mesh, two-group container where each mesh is covered
exactly once; an empty record list leaving a mesh unassigned; and a record
pair double-covering a mesh. -/
theorem C8_witness :
    (∃ groupMeshes,
      assignMeshesToGroups 2 2 1 [⟨0, 0, 1, 0⟩, ⟨1, 1, 1, 0⟩] = .ok groupMeshes ∧
      groupMeshes.length = 2 ∧
      ∀ i < 2, (groupMeshes.map (fun meshes => meshes.count i)).sum = 1) ∧
    assignMeshesToGroups 1 1 1 []
      = .error (.invalidFmdl "Mesh not assigned to mesh group") ∧
    assignMeshesToGroups 1 1 1 [⟨0, 0, 1, 0⟩, ⟨0, 0, 1, 0⟩]
      = .error (.invalidFmdl "Invalid double mesh group assignment") :=
  ⟨(C8_theorem 2 2 1 _ (by decide) (by decide)).2.2 (by decide),
    (C8_theorem 1 1 1 [] (by decide) (by decide)).2.1 (by decide) ⟨0, by decide, by decide⟩,
    (C8_theorem 1 1 1 _ (by decide) (by decide)).1 ⟨0, by decide⟩⟩


end FmdlSpec
